import Mathlib

/-!
Shallow embedding of the statement-standardization engine in
`bank_transformer.py` (class `BankStatementTransformer`).

Python cell values are modelled by `Cell` (absent = `None`, `intv` = `int`,
`floatv` = `float` modelled as an exact rational, `text` = `str`, `dt` =
`datetime` modelled as a day count since 1970-01-01; the time of day is
irrelevant to every operation the engine performs on temporal values).
Python dictionaries are modelled as insertion-ordered association lists
(`dset` updates in place, appends fresh keys at the end, exactly like a
Python `dict`).  Machine floats are modelled as rationals: float rounding
noise, `inf`/`nan` literals and digit underscores accepted by Python's
`float()` are outside the model.  `pandas.to_datetime` string parsing is an
external library call; the pipeline is parameterized by the parser
(`String → Option Int`, the result being the parsed calendar day).
-/

namespace FinanceBot

set_option maxRecDepth 16000

/-- An untyped spreadsheet cell. -/
inductive Cell where
  | absent
  | intv (n : Int)
  | floatv (q : Rat)
  | text (s : String)
  | dt (days : Int)
deriving DecidableEq, Repr

/-- Python truthiness of a cell value (`None`, `0`, `0.0`, `""` are falsy;
`datetime` objects are always truthy). -/
def Cell.truthy : Cell → Bool
  | .absent => false
  | .intv n => n != 0
  | .floatv q => q != 0
  | .text s => s != ""
  | .dt _ => true

/-- A loaded spreadsheet: rows of cells. -/
abbrev Grid := List (List Cell)

/-! ### String utilities (ASCII model of the Python string operations) -/

/-- `listStarts n h` : `n` is a prefix of `h`. -/
def listStarts : List Char → List Char → Bool
  | [], _ => true
  | _ :: _, [] => false
  | a :: as, b :: bs => a == b && listStarts as bs

/-- `subIn n h` : `n` occurs as a contiguous sublist of `h`
(Python's `n in h` on strings, via char lists). -/
def subIn (n : List Char) : List Char → Bool
  | [] => n.isEmpty
  | c :: rest => listStarts n (c :: rest) || subIn n rest

/-- Python's `needle in hay` substring test. -/
def strContains (hay needle : String) : Bool := subIn needle.toList hay.toList

/-- Python's `str.lower()` (ASCII model). -/
def lowerStr (s : String) : String := String.mk (s.toList.map Char.toLower)

/-- Python's `\s` character class (ASCII model). -/
def pyIsSpace (c : Char) : Bool :=
  c == ' ' || c == '\t' || c == '\n' || c == '\x0d' || c == '\x0b' || c == '\x0c'

def isDigitCh (c : Char) : Bool := '0' ≤ c && c ≤ '9'

def isUpperAZ (c : Char) : Bool := 'A' ≤ c && c ≤ 'Z'

def isLowerAZ (c : Char) : Bool := 'a' ≤ c && c ≤ 'z'

/-- Python's `\w` word-character class (ASCII model). -/
def isWordCh (c : Char) : Bool := isDigitCh c || isUpperAZ c || isLowerAZ c || c == '_'

/-- Python's `str.strip()` (whitespace trim). -/
def pyStrip (s : String) : String :=
  String.mk (((s.toList.dropWhile pyIsSpace).reverse.dropWhile pyIsSpace).reverse)

/-- `' '.join l`. -/
def joinSpace (l : List String) : String :=
  match l with
  | [] => ""
  | s :: rest => rest.foldl (fun acc t => acc ++ " " ++ t) s

/-! ### Python number rendering (`str(...)` on cells) -/

def digitsOfNat (n : Nat) : String := toString n

/-- Decimal expansion of `num/den` to at most `fuel` fractional digits,
stopping when the remainder vanishes. -/
def fracDigitsAux : Nat → Nat → Nat → String
  | _, _, 0 => ""
  | num, den, Nat.succ fuel =>
    if num == 0 then ""
    else
      let num10 := num * 10
      digitsOfNat (num10 / den) ++ fracDigitsAux (num10 % den) den fuel

/-- Rendering of a `float` cell as text.  Python renders the shortest digit
string denoting the same binary double; for values with a terminating
decimal expansion (every value the claims exercise) this agrees with the
exact expansion produced here, with `.0` appended to integral values.
Non-terminating expansions are truncated at 17 digits. -/
def ratStr (q : Rat) : String :=
  let sign := if q < 0 then "-" else ""
  let n := q.num.natAbs
  let d := q.den
  let ip := n / d
  let fp := n % d
  if fp == 0 then sign ++ digitsOfNat ip ++ ".0"
  else sign ++ digitsOfNat ip ++ "." ++ fracDigitsAux fp d 17

/-! ### Calendar arithmetic (model of `datetime` / `strftime`)

Day counts are relative to 1970-01-01 (day 0), using the standard
civil-calendar conversion; Lean's `Int` division is floor division for the
positive divisors used here. -/

def civilFromDays (z : Int) : Int × Int × Int :=
  let z' := z + 719468
  let era := z' / 146097
  let doe := z' - era * 146097
  let yoe := (doe - doe / 1460 + doe / 36524 - doe / 146096) / 365
  let y := yoe + era * 400
  let doy := doe - (365 * yoe + yoe / 4 - yoe / 100)
  let mp := (5 * doy + 2) / 153
  let d := doy - (153 * mp + 2) / 5 + 1
  let m := if mp < 10 then mp + 3 else mp - 9
  (if m ≤ 2 then y + 1 else y, m, d)

def daysFromCivil (y m d : Int) : Int :=
  let y2 := if m ≤ 2 then y - 1 else y
  let era := y2 / 400
  let yoe := y2 - era * 400
  let mp := (m + 9) % 12
  let doy := (153 * mp + 2) / 5 + d - 1
  let doe := yoe * 365 + yoe / 4 - yoe / 100 + doy
  era * 146097 + doe - 719468

/-- Two-digit zero padding (`%d`, `%m`). -/
def pad2 (n : Int) : String :=
  if 0 ≤ n && n < 10 then "0" ++ toString n else toString n

/-- `strftime('%d/%m/%Y')`. -/
def fmtDMY (days : Int) : String :=
  let c := civilFromDays days
  pad2 c.2.2 ++ "/" ++ pad2 c.2.1 ++ "/" ++ toString c.1

/-- `strftime('%m/%d/%Y')`. -/
def fmtMDY (days : Int) : String :=
  let c := civilFromDays days
  pad2 c.2.1 ++ "/" ++ pad2 c.2.2 ++ "/" ++ toString c.1

/-- `strftime('%Y-%m-%d')`. -/
def fmtYMD (days : Int) : String :=
  let c := civilFromDays days
  toString c.1 ++ "-" ++ pad2 c.2.1 ++ "-" ++ pad2 c.2.2

/-- `str(...)` applied to a cell (used for the detection corpus and the
account-info row text). -/
def Cell.pyStr : Cell → String
  | .absent => "None"
  | .intv n => toString n
  | .floatv q => ratStr q
  | .text s => s
  | .dt d => fmtYMD d ++ " 00:00:00"

/-! ### `float()` literal parsing (model of Python's `float(str)`)

Grammar modelled: optional sign, then `digits [. digits] | . digits`, then
an optional exponent `e|E [sign] digits`, consuming the whole string.
(`inf`/`nan` spellings and digit underscores are not modelled.) -/

def digitsVal (ds : List Char) : Nat :=
  ds.foldl (fun acc c => acc * 10 + (c.toNat - '0'.toNat)) 0

def parseSign : List Char → (Bool × List Char)
  | '-' :: rest => (true, rest)
  | '+' :: rest => (false, rest)
  | cs => (false, cs)

/-- Mantissa: `digits [. digits] | . digits`; returns its value and the
unconsumed remainder. -/
def parseMantissa (cs : List Char) : Option (Rat × List Char) :=
  let ip := cs.takeWhile isDigitCh
  let r1 := cs.dropWhile isDigitCh
  match r1 with
  | '.' :: r2 =>
    let fp := r2.takeWhile isDigitCh
    let r3 := r2.dropWhile isDigitCh
    if ip.isEmpty && fp.isEmpty then none
    else some ((digitsVal ip : Rat) + (digitsVal fp : Rat) / ((10 : Rat) ^ fp.length), r3)
  | _ => if ip.isEmpty then none else some ((digitsVal ip : Rat), r1)

/-- Digits of an exponent after `e`/`E`, with optional sign. -/
def parseExponentDigits (r1 : List Char) : Option (Int × List Char) :=
  let (neg, r2) := parseSign r1
  let ds := r2.takeWhile isDigitCh
  let r3 := r2.dropWhile isDigitCh
  if ds.isEmpty then none
  else some (if neg then -(digitsVal ds : Int) else (digitsVal ds : Int), r3)

/-- Optional exponent part; fails on a malformed exponent, yields the scale
factor exponent and the remainder. -/
def parseExponent (cs : List Char) : Option (Int × List Char) :=
  match cs with
  | 'e' :: r1 => parseExponentDigits r1
  | 'E' :: r1 => parseExponentDigits r1
  | _ => some (0, cs)

/-- `float(s)` on the modelled grammar; `none` models `ValueError`. -/
def parseFloat (s : String) : Option Rat :=
  let (neg, r1) := parseSign s.toList
  match parseMantissa r1 with
  | none => none
  | some (m, r2) =>
    match parseExponent r2 with
    | none => none
    | some (e, r3) =>
      if r3.isEmpty then
        let v := m * (10 : Rat) ^ e
        some (if neg then -v else v)
      else none

/-! ### Cell classifiers and amount parsing (`_is_date`, `_is_amount`,
`_parse_amount`, `_standardize_amount`) -/

/-- The character class stripped by `_parse_amount` / `_is_amount`:
`[₦$£€,\s()]`. -/
def isStripCh (c : Char) : Bool :=
  c == '₦' || c == '$' || c == '£' || c == '€' || c == ',' || c == '(' || c == ')' || pyIsSpace c

/-- `re.sub(r'[₦$£€,\s()]', '', s)`. -/
def stripAmountChars (s : String) : String :=
  String.mk (s.toList.filter (fun c => !isStripCh c))

/-- `_parse_amount`: numbers pass through; text is stripped then parsed,
with `0.0` on failure; every other kind yields `0.0`. -/
def parse_amount : Cell → Rat
  | .intv n => (n : Rat)
  | .floatv q => q
  | .text s => (parseFloat (stripAmountChars s)).getD 0
  | _ => 0

/-- `_is_amount`. -/
def is_amount : Cell → Bool
  | .intv n => n != 0
  | .floatv q => q != 0
  | .text s =>
    match parseFloat (stripAmountChars s) with
    | some q => q != 0
    | none => false
  | _ => false

def isDateSep (c : Char) : Bool := c == '/' || c == '-'

/-- `$` of Python `re`: end of string, or just before a final newline. -/
def reAtEnd : List Char → Bool
  | [] => true
  | ['\n'] => true
  | _ => false

/-- Anchored match of `\d{a} sep \d{b} sep \d{c} $` where each block length
is constrained by the given predicate (the greedy `\d{1,2}` / `\d{4}`
repetitions, followed by a non-digit, are equivalent to taking the maximal
digit run and testing its length). -/
def matchDateShape (p1 p2 p3 : Nat → Bool) (cs : List Char) : Bool :=
  let d1 := cs.takeWhile isDigitCh
  match cs.dropWhile isDigitCh with
  | s1 :: r2 =>
    if isDateSep s1 && p1 d1.length then
      let d2 := r2.takeWhile isDigitCh
      match r2.dropWhile isDigitCh with
      | s2 :: r4 =>
        if isDateSep s2 && p2 d2.length then
          let d3 := r4.takeWhile isDigitCh
          p3 d3.length && reAtEnd (r4.dropWhile isDigitCh)
        else false
      | [] => false
    else false
  | [] => false

def len12 (n : Nat) : Bool := n == 1 || n == 2

/-- The three `date_patterns` of the transformer, as anchored matchers. -/
def matchesDatePattern (s : String) : Bool :=
  matchDateShape len12 len12 (· == 4) s.toList
  || matchDateShape (· == 4) len12 len12 s.toList
  || matchDateShape len12 len12 (· == 2) s.toList

/-- `_is_date`. -/
def is_date : Cell → Bool
  | .intv n => 1000 < n && n < 100000
  | .floatv q => 1000 < q && q < 100000
  | .text s => matchesDatePattern s
  | .dt _ => true
  | .absent => false

/-! ### Two-decimal rendering (`f"{x:.2f}"`) -/

/-- Round to the nearest integer, ties to even (the rounding used by
Python's fixed-point float formatting, applied here to the exact rational
standing in for the float). -/
def roundHalfEven (q : Rat) : Int :=
  let f := ⌊q⌋
  let r := q - (f : Rat)
  if r < 1/2 then f
  else if (1/2 : Rat) < r then f + 1
  else if f % 2 == 0 then f else f + 1

/-- `f"{q:.2f}"`. -/
def formatTwoDec (q : Rat) : String :=
  let n := (roundHalfEven (q * 100)).natAbs
  (if q < 0 then "-" else "") ++ toString (n / 100) ++ "." ++ pad2 ((n % 100 : Nat) : Int)

/-- `_standardize_amount`: `''` and `None` map to `''`; everything else is
parsed and rendered with two decimals. -/
def standardize_amount (amount : Cell) : String :=
  if amount == .text "" || amount == .absent then ""
  else formatTwoDec (parse_amount amount)

/-! ### Date standardization (`_standardize_date`)

`pandas.to_datetime` is the external parser parameter `dtParse`
(`none` models `NaT`).  A temporal result is its calendar day count. -/

/-- The day count of `datetime(1900, 1, 1) + Timedelta(days=v - 2)` (the
date part of the shifted Excel serial value `v`). -/
def excelSerialDays (v : Rat) : Int := daysFromCivil 1900 1 1 + ⌊v - 2⌋

/-- `pd.Timedelta` is backed by a signed 64-bit nanosecond count:
`Timedelta(days=x)` raises `OutOfBoundsTimedelta` once `x` days exceed
`2^63 - 1` nanoseconds (about 106751.99 days) in magnitude.  The exact
boundary is computed here on the rational standing in for the float;
float rounding right at the boundary is outside the model. -/
def timedeltaDaysFits (x : Rat) : Bool :=
  |x| * 86400000000000 ≤ 9223372036854775807

/-- Dispatch on the caller-selected target format (unrecognized targets
fall back to `%d/%m/%Y`). -/
def renderTarget (target_format : String) (days : Int) : String :=
  if target_format == "DD/MM/YYYY" then fmtDMY days
  else if target_format == "MM/DD/YYYY" then fmtMDY days
  else if target_format == "YYYY-MM-DD" then fmtYMD days
  else fmtDMY days

/-- `_standardize_date`.  A numeric value above 1000 takes the Excel
serial path only while `Timedelta(days=v - 2)` is constructible; past the
64-bit-nanosecond bound the constructor raises and the surrounding
`except` returns `str(date_value)`. -/
def standardize_date (dtParse : String → Option Int) (target_format : String) (c : Cell) : String :=
  if !c.truthy then ""
  else
    match c with
    | .intv n =>
      if 1000 < n then
        if timedeltaDaysFits ((n : Rat) - 2) then
          renderTarget target_format (excelSerialDays (n : Rat))
        else c.pyStr
      else c.pyStr
    | .floatv q =>
      if 1000 < q then
        if timedeltaDaysFits (q - 2) then renderTarget target_format (excelSerialDays q)
        else c.pyStr
      else c.pyStr
    | .text s =>
      match dtParse s with
      | some d => renderTarget target_format d
      | none => s
    | .dt d => renderTarget target_format d
    | .absent => c.pyStr

/-! ### Insertion-ordered dictionaries (Python `dict`) -/

/-- An insertion-ordered string-keyed dictionary. -/
abbrev Dict (α : Type) := List (String × α)

/-- `k in d`. -/
def dmem (d : Dict α) (k : String) : Bool := d.any (fun p => p.1 == k)

/-- `d.get(k)` / `d[k]`. -/
def dget (d : Dict α) (k : String) : Option α :=
  (d.find? (fun p => p.1 == k)).map (·.2)

/-- `d[k] = v`: update the key's entry in place when it exists (a Python
dictionary holds each key once), append a fresh key at the end. -/
def dset : Dict α → String → α → Dict α
  | [], k, v => [(k, v)]
  | p :: t, k, v => if p.1 == k then (k, v) :: t else p :: dset t k v

/-- Python truthiness of `d.get(k)` when the value type is `Cell`
(a missing key gives `None`, which is falsy). -/
def dgetTruthy (d : Dict Cell) (k : String) : Bool :=
  match dget d k with
  | some c => c.truthy
  | none => false

/-! ### Format registry (`_initialize_bank_formats`) -/

/-- The `header_row` entry of a registry profile: a fixed index, or the
`'auto-detect'` sentinel carried by the generic profile. -/
inductive HeaderRowSpec where
  | idx (n : Int)
  | autoDetect
deriving DecidableEq, Repr

structure BankFormat where
  key : String
  name : String
  identifiers : List String
  header_row : HeaderRowSpec
  account_info_rows : Option (List Nat)
  mapping : Dict String
deriving DecidableEq, Repr

def standard_headers : List String :=
  ["Tran Date", "Value Date", "Ref. No", "Transaction Details",
   "Debit", "Credit", "Balance"]

def fcmbFormat : BankFormat :=
  { key := "FCMB_FORMAT_1",
    name := "FCMB Statement Format 1",
    identifiers := ["1021040520", "STATEMENT OF ACCOUNT"],
    header_row := .idx 16,
    account_info_rows := some [3, 4, 5, 6, 7, 8, 12, 13, 14],
    mapping := [("Transaction Date", "Tran Date"),
                ("Description", "Transaction Details"),
                ("Value Date", "Value Date"),
                ("Withdrawls", "Debit"),
                ("Deposits", "Credit"),
                ("Balance", "Balance"),
                ("Instrument Code", "Ref. No")] }

def gtbFormat : BankFormat :=
  { key := "GTB_ODS_FORMAT",
    name := "GTB ODS Statement Format",
    identifiers := ["TRA DATE", "REMARKS", "NUBAN"],
    header_row := .idx 2,
    account_info_rows := some [0, 1],
    mapping := [("TRA DATE", "Tran Date"),
                ("REMARKS", "Transaction Details"),
                ("NUBAN", "Ref. No"),
                ("DEBIT", "Debit"),
                ("CREDIT", "Credit"),
                ("CRNT BAL", "Balance")] }

def genericFormat : BankFormat :=
  { key := "GENERIC",
    name := "Generic Bank Format",
    identifiers := [],
    header_row := .autoDetect,
    account_info_rows := none,
    mapping := [] }

def bank_formats : List BankFormat := [fcmbFormat, gtbFormat, genericFormat]

/-- A resolved profile, as returned by `_detect_format` (the `header_row`
is concrete there: a registry match carries the profile's fixed index, and
generic detection yields an index or `-1`). -/
structure FormatInfo where
  key : String
  name : String
  header_row : Int
  account_info_rows : Option (List Nat)
  mapping : Dict String
deriving DecidableEq, Repr

/-- Bind a registry profile into the shape `_detect_format` returns.  The
`autoDetect` arm is unreachable: the detection loop skips the `GENERIC`
entry, the only profile carrying the sentinel. -/
def bindProfile (f : BankFormat) : FormatInfo :=
  { key := f.key, name := f.name,
    header_row := match f.header_row with | .idx n => n | .autoDetect => -1,
    account_info_rows := f.account_info_rows,
    mapping := f.mapping }

/-! ### Format detection (`_detect_format`, `_detect_generic_format`) -/

/-- The lower-cased search corpus over the first 20 rows. -/
def search_corpus (raw : Grid) : String :=
  lowerStr (joinSpace ((raw.take 20).flatMap
    (fun row => (row.filter (fun c => c != Cell.absent)).map Cell.pyStr)))

/-- All of a profile's identifiers (lower-cased) occur in the corpus. -/
def profileMatches (corpus : String) (f : BankFormat) : Bool :=
  f.identifiers.all (fun idf => strContains corpus (lowerStr idf))

/-- The registry loop of `_detect_format`: first match wins, the
`GENERIC` entry is skipped. -/
def detectLoop (corpus : String) : List BankFormat → Option FormatInfo
  | [] => none
  | f :: rest =>
    if f.key == "GENERIC" then detectLoop corpus rest
    else if profileMatches corpus f then some (bindProfile f)
    else detectLoop corpus rest

def common_headers : List String :=
  ["date", "transaction", "description", "narration", "remarks",
   "debit", "credit", "withdrawal", "deposit", "balance", "amount"]

/-- Count of cells in a row that are truthy strings containing one of the
financial-header tokens. -/
def headerCount (row : List Cell) : Nat :=
  (row.filter (fun c =>
    match c with
    | .text s => s != "" && common_headers.any (fun h => strContains (lowerStr s) h)
    | _ => false)).length

/-- The column-mapping synthesis for one generic header cell. -/
def classifyHeader (cl : String) : Option String :=
  if strContains cl "date" && !strContains cl "value" then some "Tran Date"
  else if strContains cl "value" && strContains cl "date" then some "Value Date"
  else if ["description", "narration", "remarks"].any (strContains cl) then
    some "Transaction Details"
  else if ["debit", "withdrawal"].any (strContains cl) then some "Debit"
  else if ["credit", "deposit"].any (strContains cl) then some "Credit"
  else if strContains cl "balance" then some "Balance"
  else if ["reference", "ref"].any (strContains cl) then some "Ref. No"
  else none

/-- The mapping built from a chosen generic header row. -/
def genericMapRow (row : List Cell) : Dict String :=
  row.foldl (fun m c =>
    match c with
    | .text s =>
      if s != "" then
        match classifyHeader (lowerStr s) with
        | some std => dset m s std
        | none => m
      else m
    | _ => m) []

/-- The header scan of `_detect_generic_format` over (at most) the first
25 rows: skip empty rows, stop at the first row with at least 4
financial-header cells. -/
def genericScan : Nat → List (List Cell) → Int × Dict String
  | _, [] => (-1, [])
  | i, row :: rest =>
    if row.isEmpty then genericScan (i + 1) rest
    else if 4 ≤ headerCount row then ((i : Int), genericMapRow row)
    else genericScan (i + 1) rest

/-- `_detect_generic_format`. -/
def detect_generic_format (raw : Grid) : FormatInfo :=
  let hm := genericScan 0 (raw.take 25)
  { key := "GENERIC", name := "Generic Bank Format",
    header_row := hm.1, mapping := hm.2,
    account_info_rows := some [0, 1, 2, 3, 4] }

/-- `_detect_format`. -/
def detect_format (raw : Grid) : FormatInfo :=
  match detectLoop (search_corpus raw) bank_formats with
  | some fi => fi
  | none => detect_generic_format raw

/-! ### Account-info extraction (`_extract_account_info`)

The two `re.search` calls are modelled directly: `(\d{10,})` finds the
leftmost maximal digit run of length at least 10;
`\b[A-Z][A-Z\s]{10,}\b` finds the leftmost position with a word boundary
before an uppercase letter followed by at least 10 uppercase/whitespace
characters, the greedy repetition backtracking until a word boundary
holds after the match. -/

/-- Leftmost run of 10+ consecutive digits (`re.search(r'(\d{10,})', s)`). -/
def digitRunSearch : List Char → Option (List Char)
  | [] => none
  | c :: rest =>
    let run := (c :: rest).takeWhile isDigitCh
    if 10 ≤ run.length then some run else digitRunSearch rest

def isUpSp (c : Char) : Bool := isUpperAZ c || pyIsSpace c

/-- `\b` between a character (classified by `lastIsWord`) and the next
character (or the end of the string). -/
def boundaryOk (lastIsWord : Bool) (next : Option Char) : Bool :=
  match next with
  | none => lastIsWord
  | some c => lastIsWord != isWordCh c

/-- Attempt `[A-Z][A-Z\s]{10,}\b` at the current position. -/
def nameMatchHere : List Char → Option (List Char)
  | [] => none
  | c :: rest =>
    if isUpperAZ c then
      let run := rest.takeWhile isUpSp
      let tail := rest.dropWhile isUpSp
      let ks := ((List.range (run.length + 1)).reverse).filter (fun k => 10 ≤ k)
      match ks.find? (fun k =>
        let matched := run.take k
        let lastC := (matched.getLast?).getD c
        boundaryOk (isWordCh lastC) ((run.drop k ++ tail).head?)) with
      | some k => some (c :: run.take k)
      | none => none
    else none

/-- Left-to-right scan for `\b[A-Z][A-Z\s]{10,}\b`, tracking the previous
character for the leading boundary. -/
def nameSearch : Option Char → List Char → Option (List Char)
  | _, [] => none
  | prev, c :: rest =>
    let boundaryBefore :=
      match prev with
      | none => true
      | some p => !isWordCh p
    if boundaryBefore then
      match nameMatchHere (c :: rest) with
      | some m => some m
      | none => nameSearch (some c) rest
    else nameSearch (some c) rest

structure AccountInfo where
  account_number : Option String := none
  account_name : Option String := none
  opening_balance : Option Rat := none
  closing_balance : Option Rat := none
deriving DecidableEq, Repr

/-- `' '.join(str(cell) for cell in row if cell is not None)`. -/
def row_text (row : List Cell) : String :=
  joinSpace ((row.filter (fun c => c != Cell.absent)).map Cell.pyStr)

/-- One cell of the balance scan: a string cell containing
`opening balance` / `closing balance` (case-insensitive) with a successor
cell assigns that field from the parsed next cell — unconditionally, so a
later trigger overwrites an earlier value. -/
def balanceStep (acc : AccountInfo) : Cell → List Cell → AccountInfo
  | .text s, next :: _ =>
    if strContains (lowerStr s) "opening balance" then
      { acc with opening_balance := some (parse_amount next) }
    else if strContains (lowerStr s) "closing balance" then
      { acc with closing_balance := some (parse_amount next) }
    else acc
  | _, _ => acc

/-- The per-cell balance scan over a row. -/
def balanceScan : List Cell → AccountInfo → AccountInfo
  | [], acc => acc
  | c :: rest, acc => balanceScan rest (balanceStep acc c rest)

/-- The account-number extraction over a row's text: assigned only when
not already set. -/
def numberStep (rt : String) (acc : AccountInfo) : AccountInfo :=
  match digitRunSearch rt.toList, acc.account_number with
  | some run, none => { acc with account_number := some (String.mk run) }
  | _, _ => acc

/-- The account-name extraction over a row's text: assigned only when not
already set and the stripped match does not contain `ACCOUNT`. -/
def nameStep (rt : String) (acc : AccountInfo) : AccountInfo :=
  match nameSearch none rt.toList, acc.account_name with
  | some m, none =>
    let potential := pyStrip (String.mk m)
    if strContains potential "ACCOUNT" then acc
    else { acc with account_name := some potential }
  | _, _ => acc

/-- One metadata row: number, then name, then the balance scan. -/
def processInfoRow (row : List Cell) (acc : AccountInfo) : AccountInfo :=
  balanceScan row (nameStep (row_text row) (numberStep (row_text row) acc))

/-- The loop over the configured metadata row indices (rows beyond the
grid, and empty rows, are skipped). -/
def infoRowsLoop (raw : Grid) : List Nat → AccountInfo → AccountInfo
  | [], acc => acc
  | ri :: rest, acc =>
    let acc' :=
      match raw[ri]? with
      | some row => if row.isEmpty then acc else processInfoRow row acc
      | none => acc
    infoRowsLoop raw rest acc'

/-- `_extract_account_info`. -/
def extract_account_info (raw : Grid) (fi : FormatInfo) : AccountInfo :=
  match fi.account_info_rows with
  | some idxs => infoRowsLoop raw idxs {}
  | none => {}

/-! ### Transaction extraction (`_extract_transactions`) -/

def rowHasContent (row : List Cell) : Bool := row.any Cell.truthy

def rowHasDateOrAmount (row : List Cell) : Bool :=
  row.any (fun c => c != Cell.absent && (is_date c || is_amount c))

/-- Build a raw transaction: `transaction[str(header)] = row[j]` for every
position with a truthy header and a present cell. -/
def rowToTransactionAux (row : List Cell) : Nat → List Cell → Dict Cell → Dict Cell
  | _, [], tx => tx
  | j, h :: hs, tx =>
    let tx' :=
      if h.truthy then
        match row[j]? with
        | some c => if c != Cell.absent then dset tx h.pyStr c else tx
        | none => tx
      else tx
    rowToTransactionAux row (j + 1) hs tx'

def rowToTransaction (headers row : List Cell) : Dict Cell :=
  rowToTransactionAux row 0 headers []

/-- The body of the extraction loop, as a filter: a row is kept iff it has
a truthy cell, a date-or-amount cell, and yields a non-empty mapping. -/
def qualifies (headers row : List Cell) : Option (Dict Cell) :=
  if rowHasContent row && rowHasDateOrAmount row then
    let tx := rowToTransaction headers row
    if tx.isEmpty then none else some tx
  else none

def extractLoop (headers : List Cell) : List (List Cell) → List (Dict Cell)
  | [] => []
  | row :: rest =>
    if rowHasContent row then
      if rowHasDateOrAmount row then
        let tx := rowToTransaction headers row
        if tx.isEmpty then extractLoop headers rest
        else tx :: extractLoop headers rest
      else extractLoop headers rest
    else extractLoop headers rest

/-- `_extract_transactions`.  Every profile the detector can produce has
`header_row = -1` or a non-negative index, so Python's negative-index
semantics never arise; an index beyond the grid raises `IndexError`
(`'list index out of range'`). -/
def extract_transactions (raw : Grid) (fi : FormatInfo) :
    Except String (List (Dict Cell)) :=
  if fi.header_row == -1 then .error "Unable to locate transaction header row"
  else
    match raw[fi.header_row.toNat]? with
    | none => .error "list index out of range"
    | some headers => .ok (extractLoop headers (raw.drop (fi.header_row.toNat + 1)))

/-! ### Standardization (`_standardize_transactions`,
`_handle_debit_credit_logic`) -/

structure Options where
  date_format : Option String := none
  include_metadata : Option Bool := none
deriving DecidableEq, Repr

/-- `_handle_debit_credit_logic` (returning the updated dictionary). -/
def handle_debit_credit (standardized original : Dict Cell) : Dict Cell :=
  let st :=
    if dmem original "Amount" && !dgetTruthy standardized "Debit"
        && !dgetTruthy standardized "Credit" then
      let amount := parse_amount ((dget original "Amount").getD Cell.absent)
      if amount < 0 then
        dset (dset standardized "Debit" (.text (formatTwoDec (abs amount)))) "Credit" (.text "")
      else
        dset (dset standardized "Credit" (.text (formatTwoDec amount))) "Debit" (.text "")
    else standardized
  let st2 := if dgetTruthy st "Debit" && !dgetTruthy st "Credit" then dset st "Credit" (.text "") else st
  if dgetTruthy st2 "Credit" && !dgetTruthy st2 "Debit" then dset st2 "Debit" (.text "") else st2

/-- The per-field conversion of the mapping loop: canonical fields whose
name contains `Date` get date standardization, Debit/Credit/Balance get
amount standardization, and every other field receives the raw value
unchanged (no text coercion). -/
def mapConvert (dtParse : String → Option Int) (df : String) (std : String)
    (v : Cell) : Cell :=
  if strContains std "Date" then Cell.text (standardize_date dtParse df v)
  else if std == "Debit" || std == "Credit" || std == "Balance" then
    Cell.text (standardize_amount v)
  else v

/-- One step of the mapping loop of `_standardize_transactions`: when the
raw label is present with a non-`None` value, convert it according to the
canonical field and assign. -/
def applyMapStep (dtParse : String → Option Int) (df : String) (tx : Dict Cell)
    (st : Dict Cell) (p : String × String) : Dict Cell :=
  match dget tx p.1 with
  | some v =>
    if v != Cell.absent then dset st p.2 (mapConvert dtParse df p.2 v)
    else st
  | none => st

/-- One step of the backfill loop: a canonical header not yet present is
assigned the empty string. -/
def backfillStep (st : Dict Cell) (h : String) : Dict Cell :=
  if dmem st h then st else dset st h (Cell.text "")

/-- The standardization of a single raw transaction: the profile mapping
with per-field conversion, the backfill of the seven canonical fields,
then the debit/credit logic. -/
def standardizeOne (dtParse : String → Option Int) (fi : FormatInfo)
    (opts : Options) (tx : Dict Cell) : Dict Cell :=
  let df := opts.date_format.getD "DD/MM/YYYY"
  let st := fi.mapping.foldl (applyMapStep dtParse df tx) []
  let st := standard_headers.foldl backfillStep st
  handle_debit_credit st tx

/-- `_standardize_transactions`. -/
def standardize_transactions (dtParse : String → Option Int) (fi : FormatInfo)
    (opts : Options) (txs : List (Dict Cell)) : List (Dict Cell) :=
  txs.map (standardizeOne dtParse fi opts)

/-! ### The transform (`transform_statement`) and the output projector
(`generate_standardized_file`)

File reading is the excluded grid-loader collaborator: the transform
consumes a loaded `Grid`.  The processing timestamp is an input (the
wall clock is external). -/

inductive TransformResult where
  | success (account_info : AccountInfo) (transactions : List (Dict Cell))
      (original_format : String) (records_processed : Nat) (processed_at : String)
  | failure (error : String)
deriving DecidableEq, Repr

def transform_statement (dtParse : String → Option Int) (raw : Grid)
    (opts : Options) (processed_at : String) : TransformResult :=
  let fi := detect_format raw
  let ai := extract_account_info raw fi
  match extract_transactions raw fi with
  | .error e => .failure e
  | .ok txs =>
    let stxs := standardize_transactions dtParse fi opts txs
    .success ai stxs fi.name stxs.length processed_at

def accountInfoTruthy (ai : AccountInfo) : Bool :=
  ai.account_number.isSome || ai.account_name.isSome
  || ai.opening_balance.isSome || ai.closing_balance.isSome

/-- `account_info.get('opening_balance', '')`: the parsed float when set,
the empty string otherwise. -/
def balanceCell : Option Rat → Cell
  | some q => .floatv q
  | none => .text ""

/-- The rows of the `Metadata` sheet, labels exactly as written. -/
def metadataRows (ai : AccountInfo) (original_format : String) (records : Nat)
    (processed_at : String) : List (String × Cell) :=
  [("Account Information", .text ""),
   ("Account Number", .text (ai.account_number.getD "")),
   ("Account Name", .text (ai.account_name.getD "")),
   ("Opening Balance", balanceCell ai.opening_balance),
   ("Closing Balance", balanceCell ai.closing_balance),
   ("", .text ""),
   ("Processing Information", .text ""),
   ("Original Format", .text original_format),
   ("Records Processed", .intv (records : Int)),
   ("Processed At", .text processed_at)]

/-- The `Transactions` table: rows reindexed to the canonical column
order. -/
def transactionsTable (txs : List (Dict Cell)) : List (List Cell) :=
  txs.map (fun t => standard_headers.map (fun h => (dget t h).getD Cell.absent))

/-- `generate_standardized_file`, as the projection it performs.  The
statement `pd.DataFrame(transactions)[self.standard_headers]` raises
`KeyError` unless every canonical column occurs among the transactions'
keys — in particular an empty transaction list yields a DataFrame with no
columns and the method raises before any sheet is produced (the
`KeyError` message text is pandas-internal and not modelled).  On success
it produces the `Transactions` table and the optional `Metadata`
label/value table (present only when metadata is requested and the
account-info dictionary is truthy, i.e. non-empty). -/
def generate_standardized_file (ai : AccountInfo) (txs : List (Dict Cell))
    (original_format : String) (records : Nat) (processed_at : String)
    (opts : Options) :
    Except String (List (List Cell) × Option (List (String × Cell))) :=
  if standard_headers.all (fun h => txs.any (fun t => dmem t h)) then
    .ok (transactionsTable txs,
      if opts.include_metadata.getD true && accountInfoTruthy ai then
        some (metadataRows ai original_format records processed_at)
      else none)
  else .error "KeyError: standard columns missing from transactions"

/-- Feed a transform result to the output projector (failures produce no
file). -/
def projectResult (opts : Options) :
    TransformResult → Option (Except String (List (List Cell) × Option (List (String × Cell))))
  | .success ai txs fmt n ts => some (generate_standardized_file ai txs fmt n ts opts)
  | .failure _ => none

/-- Discriminator for string-valued cells. -/
def Cell.isText : Cell → Bool
  | .text _ => true
  | _ => false

/-- All values of a dictionary are string cells. -/
def allValuesText (d : Dict Cell) : Bool := d.all (fun p => p.2.isText)

/-- A parser standing in for `pandas.to_datetime` that recognizes nothing
(returns `NaT` on every string). -/
def nullParse : String → Option Int := fun _ => none

/-! ## Dictionary lemmas -/

theorem dget_isSome_iff_dmem (d : Dict α) (k : String) :
    (dget d k).isSome = dmem d k := by
  induction d with
  | nil => rfl
  | cons p t ih =>
    by_cases h : p.1 == k
    · simp [dget, dmem, List.find?, h]
    · have hskip : dget (p :: t) k = dget t k := by simp [dget, List.find?, h]
      rw [hskip, ih]
      simp [dmem, h]

theorem dget_dset_self (d : Dict α) (k : String) (v : α) :
    dget (dset d k v) k = some v := by
  induction d with
  | nil => simp [dset, dget, List.find?]
  | cons p t ih =>
    by_cases hp : p.1 == k
    · simp [dset, hp, dget, List.find?]
    · simp [dset, hp, dget, List.find?, dget] at *
      exact ih

theorem dget_dset_ne (d : Dict α) (k k' : String) (v : α) (h : k' ≠ k) :
    dget (dset d k v) k' = dget d k' := by
  have hk : ((k : String) == k') = false := by
    simp only [beq_eq_false_iff_ne]; exact fun hh => h hh.symm
  induction d with
  | nil => simp [dset, dget, List.find?, hk]
  | cons p t ih =>
    by_cases hp : p.1 == k
    · have hpk : p.1 = k := by simpa using hp
      simp [dset, hp, dget, List.find?, hk, hpk]
    · by_cases hp' : p.1 == k'
      · simp [dset, hp, dget, List.find?, hp']
      · simp [dset, hp, dget, List.find?, hp'] at *
        exact ih

theorem dmem_dset (d : Dict α) (k k' : String) (v : α) :
    dmem (dset d k v) k' = (dmem d k' || k' == k) := by
  by_cases h : k' = k
  · subst h
    have h1 : (dget (dset d k' v) k').isSome = true := by
      rw [dget_dset_self]; rfl
    rw [dget_isSome_iff_dmem] at h1
    simp [h1]
  · have h1 := dget_dset_ne d k k' v h
    have h2 := dget_isSome_iff_dmem (dset d k v) k'
    have h3 := dget_isSome_iff_dmem d k'
    have hb : (k' == k) = false := by simpa using h
    rw [h1] at h2
    simp [hb, ← h2, ← h3]

/-! ## C5 : single-`Amount`-column debit/credit fallback -/

/-- C5.  When the raw transaction has an `Amount` field and the mapping
produced neither Debit nor Credit (both falsy), the fallback sets Debit to
the absolute value formatted to two decimals with Credit empty for a
negative amount, and Credit to the formatted value with Debit empty
otherwise; in no case are both non-empty afterwards. -/
theorem amount_fallback_exclusive (standardized original : Dict Cell)
    (hA : dmem original "Amount" = true)
    (hD : dgetTruthy standardized "Debit" = false)
    (hC : dgetTruthy standardized "Credit" = false) :
    (parse_amount ((dget original "Amount").getD Cell.absent) < 0 →
      dget (handle_debit_credit standardized original) "Debit"
          = some (.text (formatTwoDec (abs (parse_amount ((dget original "Amount").getD Cell.absent)))))
      ∧ dget (handle_debit_credit standardized original) "Credit" = some (.text ""))
    ∧ (0 ≤ parse_amount ((dget original "Amount").getD Cell.absent) →
      dget (handle_debit_credit standardized original) "Credit"
          = some (.text (formatTwoDec (parse_amount ((dget original "Amount").getD Cell.absent))))
      ∧ dget (handle_debit_credit standardized original) "Debit" = some (.text ""))
    ∧ ¬(dgetTruthy (handle_debit_credit standardized original) "Debit" = true
        ∧ dgetTruthy (handle_debit_credit standardized original) "Credit" = true) := by
  have hDC : ("Debit" : String) ≠ "Credit" := by decide
  have hCD : ("Credit" : String) ≠ "Debit" := by decide
  unfold handle_debit_credit
  simp only [hA, hD, hC, Bool.not_false, Bool.and_true, Bool.true_and, if_true]
  set a := parse_amount ((dget original "Amount").getD Cell.absent) with ha
  by_cases hneg : a < 0
  · -- negative amount: Debit := |a| formatted, Credit := ''
    rw [if_pos hneg]
    set st1 := dset (dset standardized "Debit" (.text (formatTwoDec (abs a)))) "Credit" (.text "")
      with hst1
    have hC1 : dget st1 "Credit" = some (.text "") := dget_dset_self ..
    have hD1 : dget st1 "Debit" = some (.text (formatTwoDec (abs a))) := by
      rw [hst1, dget_dset_ne _ _ _ _ hDC, dget_dset_self]
    have hCt1 : dgetTruthy st1 "Credit" = false := by
      simp [dgetTruthy, hC1, Cell.truthy]
    set st2 := if dgetTruthy st1 "Debit" && !dgetTruthy st1 "Credit" then
        dset st1 "Credit" (.text "") else st1 with hst2
    have hC2 : dget st2 "Credit" = some (.text "") := by
      rw [hst2]; split
      · exact dget_dset_self ..
      · exact hC1
    have hD2 : dget st2 "Debit" = some (.text (formatTwoDec (abs a))) := by
      rw [hst2]; split
      · rw [dget_dset_ne _ _ _ _ hDC]; exact hD1
      · exact hD1
    have hCt2 : dgetTruthy st2 "Credit" = false := by
      simp [dgetTruthy, hC2, Cell.truthy]
    have hfin : (if dgetTruthy st2 "Credit" && !dgetTruthy st2 "Debit" then
        dset st2 "Debit" (.text "") else st2) = st2 := by
      simp [hCt2]
    rw [hfin]
    refine ⟨fun _ => ⟨hD2, hC2⟩, fun hpos => absurd hneg (not_lt.mpr hpos), fun hcon => ?_⟩
    rw [hCt2] at hcon
    exact Bool.false_ne_true hcon.2
  · -- non-negative amount: Credit := a formatted, Debit := ''
    rw [if_neg hneg]
    set st1 := dset (dset standardized "Credit" (.text (formatTwoDec a))) "Debit" (.text "")
      with hst1
    have hD1 : dget st1 "Debit" = some (.text "") := dget_dset_self ..
    have hC1 : dget st1 "Credit" = some (.text (formatTwoDec a)) := by
      rw [hst1, dget_dset_ne _ _ _ _ hCD, dget_dset_self]
    have hDt1 : dgetTruthy st1 "Debit" = false := by
      simp [dgetTruthy, hD1, Cell.truthy]
    have hst2 : (if dgetTruthy st1 "Debit" && !dgetTruthy st1 "Credit" then
        dset st1 "Credit" (.text "") else st1) = st1 := by
      simp [hDt1]
    rw [hst2]
    set st3 := if dgetTruthy st1 "Credit" && !dgetTruthy st1 "Debit" then
        dset st1 "Debit" (.text "") else st1 with hst3
    have hD3 : dget st3 "Debit" = some (.text "") := by
      rw [hst3]; split
      · exact dget_dset_self ..
      · exact hD1
    have hC3 : dget st3 "Credit" = some (.text (formatTwoDec a)) := by
      rw [hst3]; split
      · rw [dget_dset_ne _ _ _ _ hCD]; exact hC1
      · exact hC1
    have hDt3 : dgetTruthy st3 "Debit" = false := by
      simp [dgetTruthy, hD3, Cell.truthy]
    refine ⟨fun hlt => absurd hlt hneg, fun _ => ⟨hC3, hD3⟩, fun hcon => ?_⟩
    rw [hDt3] at hcon
    exact Bool.false_ne_true hcon.1

/-- Witness for C5 at a concrete negative single-column amount. -/
theorem amount_fallback_exclusive_witness :
    dget (handle_debit_credit
        [("Debit", .text ""), ("Credit", .text "")]
        [("Amount", .text "-250.5")]) "Debit" = some (.text "250.50") := by
  have h := amount_fallback_exclusive
    [("Debit", .text ""), ("Credit", .text "")] [("Amount", .text "-250.5")]
    (by decide) (by decide) (by decide)
  have hneg : parse_amount ((dget [("Amount", Cell.text "-250.5")] "Amount").getD Cell.absent) < 0 := by
    with_unfolding_all decide
  have hres := (h.1 hneg).1
  rw [hres]
  with_unfolding_all decide

/-! ## C6 : amount standardization -/

/-- C6.  Amount standardization sends the empty string and the absent
value to the empty string, and every other cell to its parsed value
rendered with two decimals; on the concrete inputs of the claim it is
idempotent (`"1234.56"`) and strips thousands separators (`"1,234.56"`). -/
theorem standardize_amount_spec :
    standardize_amount (.text "") = ""
    ∧ standardize_amount .absent = ""
    ∧ (∀ c : Cell, c ≠ .text "" → c ≠ .absent →
        standardize_amount c = formatTwoDec (parse_amount c))
    ∧ standardize_amount (.text "1234.56") = "1234.56"
    ∧ standardize_amount (.text "1,234.56") = "1234.56" := by
  refine ⟨rfl, rfl, fun c h1 h2 => ?_, by with_unfolding_all decide,
    by with_unfolding_all decide⟩
  have hb1 : (c == Cell.text "") = false := by simpa using h1
  have hb2 : (c == Cell.absent) = false := by simpa using h2
  simp [standardize_amount, hb1, hb2]

/-- Witness for C6 at a non-empty concrete cell. -/
theorem standardize_amount_spec_witness :
    standardize_amount (.intv 250) = formatTwoDec (parse_amount (.intv 250)) :=
  standardize_amount_spec.2.2.1 (.intv 250) (by decide) (by decide)

/-! ## C7 : date standardization -/

/-- An unrecognized target format renders like the default `%d/%m/%Y`. -/
theorem renderTarget_default (tf : String) (h1 : tf ≠ "DD/MM/YYYY")
    (h2 : tf ≠ "MM/DD/YYYY") (h3 : tf ≠ "YYYY-MM-DD") (d : Int) :
    renderTarget tf d = renderTarget "DD/MM/YYYY" d := by
  have b1 : (tf == "DD/MM/YYYY") = false := by simpa using h1
  have b2 : (tf == "MM/DD/YYYY") = false := by simpa using h2
  have b3 : (tf == "YYYY-MM-DD") = false := by simpa using h3
  simp [renderTarget, b1, b2, b3]

/-- C7 (amended).  Date standardization: a numeric input above 1000 whose
day offset fits the 64-bit-nanosecond Timedelta range is rendered as
1899-12-30 plus that many (whole) days, while a numeric input beyond the
range falls into the never-throw fallback and returns its textual
representation verbatim; string inputs go through the external parser,
falling back to the original text verbatim; temporal inputs pass through;
every parsed date is rendered in the caller's target shape, with
unrecognized targets behaving like the `DD/MM/YYYY` default. -/
theorem standardize_date_spec (p : String → Option Int) (tf : String) :
    (∀ n : Int, 1000 < n → timedeltaDaysFits ((n : Rat) - 2) = true →
      standardize_date p tf (.intv n)
        = renderTarget tf (daysFromCivil 1899 12 30 + n))
    ∧ (∀ n : Int, 1000 < n → timedeltaDaysFits ((n : Rat) - 2) = false →
      standardize_date p tf (.intv n) = (Cell.intv n).pyStr)
    ∧ (∀ q : Rat, 1000 < q → timedeltaDaysFits (q - 2) = true →
      standardize_date p tf (.floatv q)
        = renderTarget tf (daysFromCivil 1899 12 30 + ⌊q⌋))
    ∧ (∀ q : Rat, 1000 < q → timedeltaDaysFits (q - 2) = false →
      standardize_date p tf (.floatv q) = (Cell.floatv q).pyStr)
    ∧ (∀ s : String, p s = none → standardize_date p tf (.text s) = s)
    ∧ (∀ s : String, s ≠ "" → ∀ d : Int, p s = some d →
      standardize_date p tf (.text s) = renderTarget tf d)
    ∧ (∀ d : Int, standardize_date p tf (.dt d) = renderTarget tf d)
    ∧ (tf ≠ "DD/MM/YYYY" → tf ≠ "MM/DD/YYYY" → tf ≠ "YYYY-MM-DD" →
      ∀ c : Cell, standardize_date p tf c = standardize_date p "DD/MM/YYYY" c) := by
  have hconst : daysFromCivil 1900 1 1 = daysFromCivil 1899 12 30 + 2 := by decide
  refine ⟨?_, ?_, ?_, ?_, ?_, ?_, ?_, ?_⟩
  · intro n hn hfits
    have ht : (Cell.intv n).truthy = true := by
      simp [Cell.truthy]; omega
    have hser : excelSerialDays (n : Rat) = daysFromCivil 1899 12 30 + n := by
      unfold excelSerialDays
      have : ((n : Rat) - 2) = ((n - 2 : Int) : Rat) := by push_cast; ring
      rw [this, Int.floor_intCast, hconst]
      ring
    simp [standardize_date, ht, hn, hfits, hser]
  · intro n hn hfits
    have ht : (Cell.intv n).truthy = true := by
      simp [Cell.truthy]; omega
    simp [standardize_date, ht, hn, hfits]
  · intro q hq hfits
    have ht : (Cell.floatv q).truthy = true := by
      have : q ≠ 0 := by positivity
      simp [Cell.truthy, this]
    have hser : excelSerialDays q = daysFromCivil 1899 12 30 + ⌊q⌋ := by
      unfold excelSerialDays
      have h2 : (2 : Rat) = ((2 : Int) : Rat) := by norm_num
      rw [h2, Int.floor_sub_int, hconst]
      ring
    simp [standardize_date, ht, hq, hfits, hser]
  · intro q hq hfits
    have ht : (Cell.floatv q).truthy = true := by
      have : q ≠ 0 := by positivity
      simp [Cell.truthy, this]
    simp [standardize_date, ht, hq, hfits]
  · intro s hp
    by_cases hs : s = ""
    · subst hs; rfl
    · have ht : (Cell.text s).truthy = true := by simp [Cell.truthy, hs]
      simp [standardize_date, ht, hp]
  · intro s hs d hp
    have ht : (Cell.text s).truthy = true := by simp [Cell.truthy, hs]
    simp [standardize_date, ht, hp]
  · intro d
    simp [standardize_date, Cell.truthy]
  · intro h1 h2 h3 c
    have hr : ∀ d, renderTarget tf d = renderTarget "DD/MM/YYYY" d :=
      renderTarget_default tf h1 h2 h3
    cases c with
    | absent => rfl
    | intv n => simp only [standardize_date, hr]
    | floatv q => simp only [standardize_date, hr]
    | text s => simp only [standardize_date, hr]
    | dt d => simp only [standardize_date, hr]

/-- Counterexample to C7 as stated: the serial 200000 exceeds the
Timedelta range, so `_standardize_date` returns the text `"200000"`, not
the calendar date 1899-12-30 plus 200000 days. -/
theorem standardize_date_overflow_counterexample :
    standardize_date nullParse "DD/MM/YYYY" (.intv 200000) = "200000"
    ∧ standardize_date nullParse "DD/MM/YYYY" (.intv 200000)
        ≠ renderTarget "DD/MM/YYYY" (daysFromCivil 1899 12 30 + 200000) := by
  constructor
  · with_unfolding_all decide
  · with_unfolding_all decide

/-- Witness for the amended C7: the in-range Excel serial 45292 renders as
2024-01-01 in the `YYYY-MM-DD` target shape. -/
theorem standardize_date_spec_witness :
    standardize_date nullParse "YYYY-MM-DD" (.intv 45292)
      = renderTarget "YYYY-MM-DD" (daysFromCivil 1899 12 30 + 45292)
    ∧ standardize_date nullParse "YYYY-MM-DD" (.intv 45292) = "2024-01-01" := by
  have h := (standardize_date_spec nullParse "YYYY-MM-DD").1 45292 (by decide)
    (by with_unfolding_all decide)
  exact ⟨h, by rw [h]; with_unfolding_all decide⟩

/-! ## Detection lemmas shared by C1, C2 and C10 -/

/-- The registry loop is the first entry that is not the generic profile
and whose identifiers all occur in the corpus. -/
theorem detectLoop_eq_find (corpus : String) (l : List BankFormat) :
    detectLoop corpus l
      = (l.find? (fun f => !(f.key == "GENERIC") && profileMatches corpus f)).map
          bindProfile := by
  induction l with
  | nil => rfl
  | cons f t ih =>
    by_cases hk : f.key == "GENERIC"
    · simp [detectLoop, List.find?, hk, ih]
    · by_cases hm : profileMatches corpus f
      · simp [detectLoop, List.find?, hk, hm]
      · simp [detectLoop, List.find?, hk, hm, ih]

/-- If no scanned row reaches four financial-header cells, the generic
scan reports no header row and an empty mapping. -/
theorem genericScan_none (i : Nat) (rows : List (List Cell))
    (h : ∀ row ∈ rows, headerCount row < 4) : genericScan i rows = (-1, []) := by
  induction rows generalizing i with
  | nil => rfl
  | cons r t ih =>
    have hr : ¬ 4 ≤ headerCount r := Nat.not_le.mpr (h r (List.mem_cons_self ..))
    have hrest : ∀ row ∈ t, headerCount row < 4 :=
      fun row hm => h row (List.mem_cons_of_mem _ hm)
    by_cases he : r.isEmpty
    · simpa [genericScan, he] using ih (i + 1) hrest
    · simpa [genericScan, he, hr] using ih (i + 1) hrest

/-! ## C2 : registry order and priority over the generic heuristic -/

/-- C2.  Format detection returns the first registered non-generic profile
all of whose lower-cased identifiers occur in the corpus of the first 20
rows, and consults the generic heuristic only when no profile matches. -/
theorem detect_format_registry_first (raw : Grid) :
    (∀ f : BankFormat,
      bank_formats.find?
          (fun g => !(g.key == "GENERIC") && profileMatches (search_corpus raw) g)
        = some f →
      detect_format raw = bindProfile f)
    ∧ (bank_formats.find?
          (fun g => !(g.key == "GENERIC") && profileMatches (search_corpus raw) g)
        = none →
      detect_format raw = detect_generic_format raw) := by
  constructor
  · intro f hf
    unfold detect_format
    rw [detectLoop_eq_find, hf]
    rfl
  · intro hf
    unfold detect_format
    rw [detectLoop_eq_find, hf]
    rfl

/-- A grid whose corpus holds both the GTB identifiers and at least four
generic financial-header tokens. -/
def gPriority : Grid :=
  [[.text "TRA DATE", .text "REMARKS", .text "NUBAN", .text "DEBIT", .text "CREDIT"]]

/-- Witness for C2: on a grid carrying both a known profile's tokens and
four generic-header tokens, the known (GTB) profile wins. -/
theorem detect_format_registry_first_witness :
    detect_format gPriority = bindProfile gtbFormat
    ∧ 4 ≤ headerCount [.text "TRA DATE", .text "REMARKS", .text "NUBAN",
        .text "DEBIT", .text "CREDIT"] :=
  ⟨(detect_format_registry_first gPriority).1 gtbFormat (by decide), by decide⟩

/-! ## C1 : failure when no profile matches and no generic header row -/

/-- C1.  When no registered non-generic profile matches the corpus and no
row among the first 25 has at least four financial-header cells, the
transform fails with the header-row error (and returns no transactions). -/
theorem transform_header_row_failure (dtParse : String → Option Int) (raw : Grid)
    (opts : Options) (ts : String)
    (hprof : ∀ f ∈ bank_formats, f.key ≠ "GENERIC" →
      profileMatches (search_corpus raw) f = false)
    (hgen : ∀ row ∈ raw.take 25, headerCount row < 4) :
    transform_statement dtParse raw opts ts
      = .failure "Unable to locate transaction header row" := by
  have hfind : bank_formats.find?
      (fun g => !(g.key == "GENERIC") && profileMatches (search_corpus raw) g)
      = none := by
    rw [List.find?_eq_none]
    intro f hf
    by_cases hk : f.key == "GENERIC"
    · simp [hk]
    · simp [hk, hprof f hf (by simpa using hk)]
  have hdet : detect_format raw = detect_generic_format raw := by
    unfold detect_format
    rw [detectLoop_eq_find, hfind]
    rfl
  have hgen' : detect_generic_format raw
      = { key := "GENERIC", name := "Generic Bank Format", header_row := -1,
          mapping := [], account_info_rows := some [0, 1, 2, 3, 4] } := by
    unfold detect_generic_format
    rw [genericScan_none 0 _ hgen]
  have hext : extract_transactions raw (detect_format raw)
      = .error "Unable to locate transaction header row" := by
    rw [hdet, hgen']
    rfl
  simp only [transform_statement]
  rw [hext]

/-- Witness for C1 on a grid with no identifiers and no header tokens. -/
theorem transform_header_row_failure_witness :
    transform_statement nullParse [[.text "hello", .text "world"]] {} "T0"
      = .failure "Unable to locate transaction header row" :=
  transform_header_row_failure nullParse [[.text "hello", .text "world"]] {} "T0"
    (by decide) (by decide)

/-! ## C10 : matched profile with a header row beyond the grid -/

/-- C10.  When a registered profile matches but the grid is shorter than
its fixed header-row index, the transform fails with the underlying
indexing error, not the header-row-not-found message: the matched header
index is never validated against the grid length. -/
theorem transform_matched_profile_oob (dtParse : String → Option Int) (raw : Grid)
    (opts : Options) (ts : String) (f : BankFormat) (hr : Int)
    (hfind : bank_formats.find?
        (fun g => !(g.key == "GENERIC") && profileMatches (search_corpus raw) g)
      = some f)
    (hhr : f.header_row = .idx hr)
    (hlen : (raw.length : Int) ≤ hr) :
    transform_statement dtParse raw opts ts = .failure "list index out of range"
    ∧ transform_statement dtParse raw opts ts
        ≠ .failure "Unable to locate transaction header row" := by
  have hdet : detect_format raw = bindProfile f := by
    unfold detect_format
    rw [detectLoop_eq_find, hfind]
    rfl
  have hfi : (bindProfile f).header_row = hr := by
    simp [bindProfile, hhr]
  have h0 : (0 : Int) ≤ hr := le_trans (Int.ofNat_nonneg _) hlen
  have hne : ((bindProfile f).header_row == -1) = false := by
    rw [hfi]
    simp only [beq_eq_false_iff_ne]
    omega
  have hnone : raw[(bindProfile f).header_row.toNat]? = none := by
    rw [hfi]
    exact List.getElem?_eq_none ((Int.le_toNat h0).mpr hlen)
  have hext : extract_transactions raw (detect_format raw)
      = .error "list index out of range" := by
    rw [hdet]
    unfold extract_transactions
    rw [hne, hnone]
    rfl
  have hmain : transform_statement dtParse raw opts ts
      = .failure "list index out of range" := by
    simp only [transform_statement]
    rw [hext]
  refine ⟨hmain, ?_⟩
  rw [hmain]
  intro hcon
  have : "list index out of range" = "Unable to locate transaction header row" := by
    injection hcon
  exact absurd this (by decide)

/-- Witness for C10: an FCMB-matching grid of one row (header row 16 out
of range). -/
theorem transform_matched_profile_oob_witness :
    transform_statement nullParse [[.text "STATEMENT OF ACCOUNT", .text "1021040520"]]
        {} "T0"
      = .failure "list index out of range" :=
  (transform_matched_profile_oob nullParse
    [[.text "STATEMENT OF ACCOUNT", .text "1021040520"]] {} "T0"
    fcmbFormat 16 (by decide) (by decide) (by decide)).1

/-! ## C4 : row-order preservation -/

/-- The extraction loop keeps exactly the qualifying rows, in source
order. -/
theorem extractLoop_eq_filterMap (headers : List Cell) (rows : List (List Cell)) :
    extractLoop headers rows = rows.filterMap (qualifies headers) := by
  induction rows with
  | nil => rfl
  | cons r t ih =>
    by_cases h1 : rowHasContent r
    · by_cases h2 : rowHasDateOrAmount r
      · by_cases h3 : (rowToTransaction headers r).isEmpty
        · simp [extractLoop, List.filterMap_cons, qualifies, h1, h2, h3, ih]
        · simp [extractLoop, List.filterMap_cons, qualifies, h1, h2, h3, ih]
      · simp [extractLoop, List.filterMap_cons, qualifies, h1, h2, ih]
    · simp [extractLoop, List.filterMap_cons, qualifies, h1, ih]

/-- C4.  With a resolved header row, the extracted transactions are
exactly the qualifying source rows after the header in source order, and
the N-th standardized transaction is the standardization of the N-th
qualifying row, for all N. -/
theorem row_order_preserved (dtParse : String → Option Int) (fi : FormatInfo)
    (opts : Options) (raw : Grid) (headers : List Cell)
    (hrow : fi.header_row ≠ -1)
    (hget : raw[fi.header_row.toNat]? = some headers) :
    ∃ txs, extract_transactions raw fi = .ok txs
      ∧ txs = (raw.drop (fi.header_row.toNat + 1)).filterMap (qualifies headers)
      ∧ ∀ n : Nat, (standardize_transactions dtParse fi opts txs)[n]?
          = (txs[n]?).map (standardizeOne dtParse fi opts) := by
  have hne : (fi.header_row == -1) = false := by simpa using hrow
  refine ⟨(raw.drop (fi.header_row.toNat + 1)).filterMap (qualifies headers), ?_, rfl, ?_⟩
  · simp [extract_transactions, hne, hget, extractLoop_eq_filterMap]
  · intro n
    simp [standardize_transactions, List.getElem?_map]

/-- A small generic grid with two transaction rows. -/
def gGeneric : Grid :=
  [[.text "Date", .text "Description", .text "Debit", .text "Credit", .text "Balance"],
   [.text "01/01/2024", .text "PAY", .text "", .text "100.00", .text "100.00"],
   [.text "02/01/2024", .text "PAYTWO", .text "50.00", .text "", .text "50.00"]]

def gGenericHead : List Cell :=
  [.text "Date", .text "Description", .text "Debit", .text "Credit", .text "Balance"]

/-- Witness for C4 at row 1 of the small generic grid. -/
theorem row_order_preserved_witness :
    (standardize_transactions nullParse (detect_format gGeneric) {}
        ((gGeneric.drop ((detect_format gGeneric).header_row.toNat + 1)).filterMap
          (qualifies gGenericHead)))[1]?
      = (((gGeneric.drop ((detect_format gGeneric).header_row.toNat + 1)).filterMap
          (qualifies gGenericHead))[1]?).map
          (standardizeOne nullParse (detect_format gGeneric) {}) := by
  obtain ⟨txs, h1, h2, h3⟩ := row_order_preserved nullParse (detect_format gGeneric) {}
    gGeneric gGenericHead (by decide) (by decide)
  rw [← h2]
  exact h3 1

/-! ## C8 : overwrite semantics of account-info extraction -/

/-- A cell that triggers the opening-balance assignment. -/
def isOpenTrigger : Cell → Bool
  | .text s => strContains (lowerStr s) "opening balance"
  | _ => false

/-- A cell that triggers the closing-balance assignment (the `elif` makes
a cell containing both phrases an opening trigger only). -/
def isCloseTrigger : Cell → Bool
  | .text s => !strContains (lowerStr s) "opening balance"
      && strContains (lowerStr s) "closing balance"
  | _ => false

/-- The successor cells of the opening-balance triggers of a row, in scan
order. -/
def openNexts (row : List Cell) : List Cell :=
  (row.zip row.tail).filterMap (fun pr => if isOpenTrigger pr.1 then some pr.2 else none)

/-- The successor cells of the closing-balance triggers of a row, in scan
order. -/
def closeNexts (row : List Cell) : List Cell :=
  (row.zip row.tail).filterMap (fun pr => if isCloseTrigger pr.1 then some pr.2 else none)

theorem getLast?_cons_eq (a : α) (l : List α) :
    (a :: l).getLast? = some ((l.getLast?).getD a) := by
  induction l generalizing a with
  | nil => rfl
  | cons b t ih =>
    rw [List.getLast?_cons_cons, ih b]
    simp

theorem balanceStep_number (acc : AccountInfo) (c : Cell) (rest : List Cell) :
    (balanceStep acc c rest).account_number = acc.account_number := by
  cases c <;> cases rest <;>
    first
      | rfl
      | (simp only [balanceStep]; split_ifs <;> rfl)

theorem balanceStep_name (acc : AccountInfo) (c : Cell) (rest : List Cell) :
    (balanceStep acc c rest).account_name = acc.account_name := by
  cases c <;> cases rest <;>
    first
      | rfl
      | (simp only [balanceStep]; split_ifs <;> rfl)

theorem balanceStep_opening_cons (acc : AccountInfo) (c nx : Cell) (r : List Cell) :
    (balanceStep acc c (nx :: r)).opening_balance
      = if isOpenTrigger c then some (parse_amount nx) else acc.opening_balance := by
  cases c with
  | text s =>
    by_cases hop : strContains (lowerStr s) "opening balance"
    · simp [balanceStep, isOpenTrigger, hop]
    · by_cases hcl : strContains (lowerStr s) "closing balance" <;>
        simp [balanceStep, isOpenTrigger, hop, hcl]
  | absent => simp [balanceStep, isOpenTrigger]
  | intv n => simp [balanceStep, isOpenTrigger]
  | floatv q => simp [balanceStep, isOpenTrigger]
  | dt d => simp [balanceStep, isOpenTrigger]

theorem balanceStep_closing_cons (acc : AccountInfo) (c nx : Cell) (r : List Cell) :
    (balanceStep acc c (nx :: r)).closing_balance
      = if isCloseTrigger c then some (parse_amount nx) else acc.closing_balance := by
  cases c with
  | text s =>
    by_cases hop : strContains (lowerStr s) "opening balance"
    · simp [balanceStep, isCloseTrigger, hop]
    · by_cases hcl : strContains (lowerStr s) "closing balance" <;>
        simp [balanceStep, isCloseTrigger, hop, hcl]
  | absent => simp [balanceStep, isCloseTrigger]
  | intv n => simp [balanceStep, isCloseTrigger]
  | floatv q => simp [balanceStep, isCloseTrigger]
  | dt d => simp [balanceStep, isCloseTrigger]

theorem balanceScan_number (row : List Cell) (acc : AccountInfo) :
    (balanceScan row acc).account_number = acc.account_number := by
  induction row generalizing acc with
  | nil => rfl
  | cons c rest ih =>
    simp only [balanceScan]
    rw [ih, balanceStep_number]

theorem balanceScan_name (row : List Cell) (acc : AccountInfo) :
    (balanceScan row acc).account_name = acc.account_name := by
  induction row generalizing acc with
  | nil => rfl
  | cons c rest ih =>
    simp only [balanceScan]
    rw [ih, balanceStep_name]

theorem balanceScan_opening (row : List Cell) (acc : AccountInfo) :
    (balanceScan row acc).opening_balance
      = match (openNexts row).getLast? with
        | some nx => some (parse_amount nx)
        | none => acc.opening_balance := by
  induction row generalizing acc with
  | nil => rfl
  | cons c rest ih =>
    simp only [balanceScan]
    rw [ih]
    cases rest with
    | nil =>
      cases c <;> rfl
    | cons nx rest' =>
      have hzip : openNexts (c :: nx :: rest')
          = if isOpenTrigger c then nx :: openNexts (nx :: rest')
            else openNexts (nx :: rest') := by
        by_cases hc : isOpenTrigger c <;>
          simp [openNexts, List.zip_cons_cons, List.filterMap_cons, hc]
      rw [hzip, balanceStep_opening_cons]
      by_cases htr : isOpenTrigger c
      · rw [if_pos htr, if_pos htr, getLast?_cons_eq]
        cases hl : (openNexts (nx :: rest')).getLast? <;> simp [hl]
      · rw [if_neg htr, if_neg htr]

theorem balanceScan_closing (row : List Cell) (acc : AccountInfo) :
    (balanceScan row acc).closing_balance
      = match (closeNexts row).getLast? with
        | some nx => some (parse_amount nx)
        | none => acc.closing_balance := by
  induction row generalizing acc with
  | nil => rfl
  | cons c rest ih =>
    simp only [balanceScan]
    rw [ih]
    cases rest with
    | nil =>
      cases c <;> rfl
    | cons nx rest' =>
      have hzip : closeNexts (c :: nx :: rest')
          = if isCloseTrigger c then nx :: closeNexts (nx :: rest')
            else closeNexts (nx :: rest') := by
        by_cases hc : isCloseTrigger c <;>
          simp [closeNexts, List.zip_cons_cons, List.filterMap_cons, hc]
      rw [hzip, balanceStep_closing_cons]
      by_cases htr : isCloseTrigger c
      · rw [if_pos htr, if_pos htr, getLast?_cons_eq]
        cases hl : (closeNexts (nx :: rest')).getLast? <;> simp [hl]
      · rw [if_neg htr, if_neg htr]

/-! ### Step lemmas for the number/name extractions -/

theorem numberStep_keeps (rt : String) (acc : AccountInfo) (x : String)
    (h : acc.account_number = some x) :
    (numberStep rt acc).account_number = some x := by
  unfold numberStep
  rw [h]
  cases digitRunSearch rt.toList <;> exact h

theorem numberStep_name (rt : String) (acc : AccountInfo) :
    (numberStep rt acc).account_name = acc.account_name := by
  unfold numberStep
  cases digitRunSearch rt.toList <;> cases h : acc.account_number <;> rfl

theorem numberStep_opening (rt : String) (acc : AccountInfo) :
    (numberStep rt acc).opening_balance = acc.opening_balance := by
  unfold numberStep
  cases digitRunSearch rt.toList <;> cases h : acc.account_number <;> rfl

theorem numberStep_closing (rt : String) (acc : AccountInfo) :
    (numberStep rt acc).closing_balance = acc.closing_balance := by
  unfold numberStep
  cases digitRunSearch rt.toList <;> cases h : acc.account_number <;> rfl

theorem nameStep_keeps (rt : String) (acc : AccountInfo) (x : String)
    (h : acc.account_name = some x) :
    (nameStep rt acc).account_name = some x := by
  unfold nameStep
  rw [h]
  cases nameSearch none rt.toList <;> exact h

theorem nameStep_number (rt : String) (acc : AccountInfo) :
    (nameStep rt acc).account_number = acc.account_number := by
  unfold nameStep
  cases hn : nameSearch none rt.toList with
  | none => cases h : acc.account_name <;> rfl
  | some m =>
    cases h : acc.account_name with
    | some y => rfl
    | none =>
      by_cases hc : strContains (pyStrip (String.mk m)) "ACCOUNT" <;> simp [hc]

theorem nameStep_opening (rt : String) (acc : AccountInfo) :
    (nameStep rt acc).opening_balance = acc.opening_balance := by
  unfold nameStep
  cases hn : nameSearch none rt.toList with
  | none => cases h : acc.account_name <;> rfl
  | some m =>
    cases h : acc.account_name with
    | some y => rfl
    | none =>
      by_cases hc : strContains (pyStrip (String.mk m)) "ACCOUNT" <;> simp [hc]

theorem nameStep_closing (rt : String) (acc : AccountInfo) :
    (nameStep rt acc).closing_balance = acc.closing_balance := by
  unfold nameStep
  cases hn : nameSearch none rt.toList with
  | none => cases h : acc.account_name <;> rfl
  | some m =>
    cases h : acc.account_name with
    | some y => rfl
    | none =>
      by_cases hc : strContains (pyStrip (String.mk m)) "ACCOUNT" <;> simp [hc]

theorem processInfoRow_number (row : List Cell) (acc : AccountInfo) (x : String)
    (h : acc.account_number = some x) :
    (processInfoRow row acc).account_number = some x := by
  unfold processInfoRow
  rw [balanceScan_number, nameStep_number]
  exact numberStep_keeps _ _ _ h

theorem processInfoRow_name (row : List Cell) (acc : AccountInfo) (x : String)
    (h : acc.account_name = some x) :
    (processInfoRow row acc).account_name = some x := by
  unfold processInfoRow
  rw [balanceScan_name]
  exact nameStep_keeps _ _ _ (by rw [numberStep_name]; exact h)

theorem processInfoRow_opening (row : List Cell) (acc : AccountInfo) :
    (processInfoRow row acc).opening_balance
      = match (openNexts row).getLast? with
        | some nx => some (parse_amount nx)
        | none => acc.opening_balance := by
  unfold processInfoRow
  rw [balanceScan_opening]
  cases hl : (openNexts row).getLast? <;>
    simp [hl, nameStep_opening, numberStep_opening]

theorem processInfoRow_closing (row : List Cell) (acc : AccountInfo) :
    (processInfoRow row acc).closing_balance
      = match (closeNexts row).getLast? with
        | some nx => some (parse_amount nx)
        | none => acc.closing_balance := by
  unfold processInfoRow
  rw [balanceScan_closing]
  cases hl : (closeNexts row).getLast? <;>
    simp [hl, nameStep_closing, numberStep_closing]

theorem infoRowsLoop_number (raw : Grid) (ris : List Nat) (acc : AccountInfo)
    (x : String) (h : acc.account_number = some x) :
    (infoRowsLoop raw ris acc).account_number = some x := by
  induction ris generalizing acc with
  | nil => exact h
  | cons ri rest ih =>
    simp only [infoRowsLoop]
    apply ih
    cases hq : raw[ri]? with
    | none => exact h
    | some row =>
      by_cases he : row.isEmpty
      · simpa [he] using h
      · simpa [he] using processInfoRow_number row acc x h

theorem infoRowsLoop_name (raw : Grid) (ris : List Nat) (acc : AccountInfo)
    (x : String) (h : acc.account_name = some x) :
    (infoRowsLoop raw ris acc).account_name = some x := by
  induction ris generalizing acc with
  | nil => exact h
  | cons ri rest ih =>
    simp only [infoRowsLoop]
    apply ih
    cases hq : raw[ri]? with
    | none => exact h
    | some row =>
      by_cases he : row.isEmpty
      · simpa [he] using h
      · simpa [he] using processInfoRow_name row acc x h

/-- C8 (amended).  During account-info extraction, the account number and
account name follow first-match-wins (a value once set is never
overwritten by later rows or cells), but the opening and closing balances
follow last-match-wins: each trigger cell in a scanned row overwrites the
field, so the final value comes from the last trigger, not the first. -/
theorem account_info_overwrite_semantics (raw : Grid) :
    (∀ (ris : List Nat) (acc : AccountInfo) (x : String),
        acc.account_number = some x →
        (infoRowsLoop raw ris acc).account_number = some x)
    ∧ (∀ (ris : List Nat) (acc : AccountInfo) (x : String),
        acc.account_name = some x →
        (infoRowsLoop raw ris acc).account_name = some x)
    ∧ (∀ (row : List Cell) (acc : AccountInfo),
        (processInfoRow row acc).opening_balance
          = match (openNexts row).getLast? with
            | some nx => some (parse_amount nx)
            | none => acc.opening_balance)
    ∧ (∀ (row : List Cell) (acc : AccountInfo),
        (processInfoRow row acc).closing_balance
          = match (closeNexts row).getLast? with
            | some nx => some (parse_amount nx)
            | none => acc.closing_balance) :=
  ⟨fun ris acc x h => infoRowsLoop_number raw ris acc x h,
   fun ris acc x h => infoRowsLoop_name raw ris acc x h,
   fun row acc => processInfoRow_opening row acc,
   fun row acc => processInfoRow_closing row acc⟩

/-- Two metadata rows, each carrying an opening-balance trigger. -/
def gBalances : Grid :=
  [[.text "Opening Balance", .intv 100], [.text "Opening Balance", .intv 200]]

/-- Counterexample to C8 as stated: with two `Opening Balance` rows the
extracted opening balance is the value of the second (last) match, not
the first. -/
theorem account_info_first_match_counterexample :
    (extract_account_info gBalances (detect_format gBalances)).opening_balance
        = some 200
    ∧ ¬ (extract_account_info gBalances (detect_format gBalances)).opening_balance
        = some (parse_amount (Cell.intv 100)) := by
  constructor
  · with_unfolding_all decide
  · with_unfolding_all decide

/-- Witness for the amended C8: an already-set account number survives the
scan of both rows. -/
theorem account_info_overwrite_semantics_witness :
    (infoRowsLoop gBalances [0, 1]
        { account_number := some "0123456789" }).account_number
      = some "0123456789" :=
  (account_info_overwrite_semantics gBalances).1 [0, 1]
    { account_number := some "0123456789" } "0123456789" rfl

/-! ## C9 : the Metadata table of the output projector -/

/-- C9 (amended).  Whenever metadata inclusion is requested (true, the
default), the extracted account-info dictionary is non-empty, and every
canonical column occurs among the transactions (as every pipeline-produced
transaction list with at least one row does), the projector emits the
Metadata label/value table with the exact label texts.  With an empty
account-info dictionary the table is omitted even though metadata was
requested, and with an empty transaction list the column selection raises
before any table is produced. -/
theorem metadata_table_spec (ai : AccountInfo) (txs : List (Dict Cell))
    (fmt : String) (n : Nat) (ts : String) (opts : Options)
    (hcols : standard_headers.all (fun h => txs.any (fun t => dmem t h)) = true)
    (hmeta : opts.include_metadata.getD true = true)
    (hai : accountInfoTruthy ai = true) :
    generate_standardized_file ai txs fmt n ts opts
        = .ok (transactionsTable txs, some (metadataRows ai fmt n ts))
    ∧ generate_standardized_file ai [] fmt n ts opts
        = .error "KeyError: standard columns missing from transactions"
    ∧ (metadataRows ai fmt n ts).map Prod.fst
        = ["Account Information", "Account Number", "Account Name",
           "Opening Balance", "Closing Balance", "", "Processing Information",
           "Original Format", "Records Processed", "Processed At"] := by
  refine ⟨?_, ?_, rfl⟩
  · simp [generate_standardized_file, hcols, hmeta, hai]
  · rfl

/-- Counterexample to C9 as stated: a successful transform with an empty
account-info dictionary produces no Metadata table even though metadata
inclusion defaults to true. -/
theorem metadata_requested_missing_counterexample :
    (projectResult {} (transform_statement nullParse gGeneric {} "T0")).map
        (fun e => e.toOption.map Prod.snd)
      = some (some none)
    ∧ ({} : Options).include_metadata.getD true = true := by
  constructor
  · with_unfolding_all decide
  · rfl

/-- A standardized transaction carrying all seven canonical columns. -/
def txFull : Dict Cell :=
  [("Tran Date", .text ""), ("Value Date", .text ""), ("Ref. No", .text ""),
   ("Transaction Details", .text ""), ("Debit", .text ""), ("Credit", .text ""),
   ("Balance", .text "")]

/-- Witness for the amended C9 at a concrete non-empty account info and a
one-row transaction list with all canonical columns. -/
theorem metadata_table_spec_witness :
    generate_standardized_file { account_number := some "0123456789" } [txFull]
        "F" 1 "T0" {}
      = .ok (transactionsTable [txFull],
          some (metadataRows { account_number := some "0123456789" } "F" 1 "T0")) :=
  (metadata_table_spec { account_number := some "0123456789" } [txFull] "F" 1 "T0"
    {} (by decide) rfl rfl).1

/-! ## C3 : shape and typing of standardized transactions -/

/-- The canonical fields receiving date or amount conversion (and so
always string-valued). -/
def dateAmountTargets : List String :=
  ["Tran Date", "Value Date", "Debit", "Credit", "Balance"]

/-- The optional value is a string cell. -/
def isTextOpt : Option Cell → Bool
  | some (.text _) => true
  | _ => false

theorem mapConvert_text (dtParse : String → Option Int) (df : String)
    (std : String) (h : std ∈ dateAmountTargets) (v : Cell) :
    ∃ s, mapConvert dtParse df std v = Cell.text s := by
  simp only [dateAmountTargets, List.mem_cons, List.not_mem_nil, or_false] at h
  rcases h with h | h | h | h | h <;> subst h <;> unfold mapConvert
  · rw [if_pos (by decide)]
    exact ⟨_, rfl⟩
  · rw [if_pos (by decide)]
    exact ⟨_, rfl⟩
  · rw [if_neg (by decide), if_pos (by decide)]
    exact ⟨_, rfl⟩
  · rw [if_neg (by decide), if_pos (by decide)]
    exact ⟨_, rfl⟩
  · rw [if_neg (by decide), if_pos (by decide)]
    exact ⟨_, rfl⟩

/-- A mapping-loop step either leaves the dictionary unchanged or assigns
the converted value at the canonical field of the pair. -/
theorem applyMapStep_char (dtParse : String → Option Int) (df : String)
    (tx st : Dict Cell) (p : String × String) :
    applyMapStep dtParse df tx st p = st
    ∨ applyMapStep dtParse df tx st p
        = dset st p.2 (mapConvert dtParse df p.2 ((dget tx p.1).getD Cell.absent)) := by
  cases hg : dget tx p.1 with
  | none =>
    left
    simp only [applyMapStep, hg]
  | some v =>
    by_cases hv : (v != Cell.absent) = true
    · right
      simp only [applyMapStep, hg, Option.getD_some]
      rw [if_pos hv]
    · left
      simp only [applyMapStep, hg]
      rw [if_neg hv]

theorem mapFold_keys (dtParse : String → Option Int) (df : String) (tx : Dict Cell)
    (l : Dict String) (st0 : Dict Cell) (k : String)
    (h : dmem (l.foldl (applyMapStep dtParse df tx) st0) k = true) :
    dmem st0 k = true ∨ k ∈ l.map Prod.snd := by
  induction l generalizing st0 with
  | nil => exact Or.inl h
  | cons p t ih =>
    rcases ih (applyMapStep dtParse df tx st0 p) h with h1 | h1
    · rcases applyMapStep_char dtParse df tx st0 p with he | he
      · rw [he] at h1
        exact Or.inl h1
      · rw [he, dmem_dset] at h1
        rcases Bool.or_eq_true_iff.mp h1 with h2 | h2
        · exact Or.inl h2
        · right
          have : k = p.2 := by simpa using h2
          simp [this]
    · right
      simp [h1]

theorem mapFold_not_target (dtParse : String → Option Int) (df : String)
    (tx : Dict Cell) (l : Dict String) (st0 : Dict Cell) (k : String)
    (hk : k ∉ l.map Prod.snd) :
    dget (l.foldl (applyMapStep dtParse df tx) st0) k = dget st0 k := by
  induction l generalizing st0 with
  | nil => rfl
  | cons p t ih =>
    have hk2 : k ∉ t.map Prod.snd := fun hm => hk (by simp [hm])
    have hkp : k ≠ p.2 := fun he => hk (by simp [he])
    rw [List.foldl_cons, ih _ hk2]
    rcases applyMapStep_char dtParse df tx st0 p with he | he
    · rw [he]
    · rw [he, dget_dset_ne _ _ _ _ hkp]

theorem mapFold_textinv (dtParse : String → Option Int) (df : String)
    (tx : Dict Cell) (l : Dict String) (st0 : Dict Cell) (k : String)
    (hk : k ∈ dateAmountTargets)
    (h0 : dmem st0 k = true → isTextOpt (dget st0 k) = true) :
    dmem (l.foldl (applyMapStep dtParse df tx) st0) k = true →
      isTextOpt (dget (l.foldl (applyMapStep dtParse df tx) st0) k) = true := by
  induction l generalizing st0 with
  | nil => exact h0
  | cons p t ih =>
    rw [List.foldl_cons]
    apply ih
    rcases applyMapStep_char dtParse df tx st0 p with he | he
    · rw [he]
      exact h0
    · rw [he]
      intro hm
      by_cases hpk : k = p.2
      · subst hpk
        rw [dget_dset_self]
        obtain ⟨s, hs⟩ := mapConvert_text dtParse df _ hk ((dget tx p.1).getD Cell.absent)
        rw [hs]
        rfl
      · rw [dget_dset_ne _ _ _ _ hpk]
        apply h0
        rw [dmem_dset] at hm
        rcases Bool.or_eq_true_iff.mp hm with h2 | h2
        · exact h2
        · exact absurd (by simpa using h2) hpk
/-! ### Backfill lemmas -/

theorem bfFold_stable (l : List String) (st0 : Dict Cell) (k : String)
    (hk : dmem st0 k = true) :
    dget (l.foldl backfillStep st0) k = dget st0 k := by
  induction l generalizing st0 with
  | nil => rfl
  | cons h t ih =>
    rw [List.foldl_cons]
    by_cases hm : dmem st0 h
    · rw [show backfillStep st0 h = st0 from by simp [backfillStep, hm]]
      exact ih st0 hk
    · have hne : k ≠ h := fun he => hm (he ▸ hk)
      have hstep : backfillStep st0 h = dset st0 h (Cell.text "") := by
        simp [backfillStep, hm]
      rw [hstep]
      have hk2 : dmem (dset st0 h (Cell.text "")) k = true := by
        rw [dmem_dset]
        simp [hk]
      rw [ih _ hk2, dget_dset_ne _ _ _ _ hne]

theorem bfFold_fills (l : List String) (st0 : Dict Cell) (k : String)
    (hkl : k ∈ l) (hk : dmem st0 k = false) :
    dget (l.foldl backfillStep st0) k = some (Cell.text "") := by
  induction l generalizing st0 with
  | nil => exact absurd hkl (List.not_mem_nil k)
  | cons h t ih =>
    rw [List.foldl_cons]
    by_cases hkh : k = h
    · subst hkh
      have hstep : backfillStep st0 k = dset st0 k (Cell.text "") := by
        simp [backfillStep, hk]
      rw [hstep]
      have hk2 : dmem (dset st0 k (Cell.text "")) k = true := by
        rw [dmem_dset]
        simp
      rw [bfFold_stable t _ k hk2, dget_dset_self]
    · have hkt : k ∈ t := by
        rcases List.mem_cons.mp hkl with he | ht
        · exact absurd he hkh
        · exact ht
      by_cases hm : dmem st0 h
      · rw [show backfillStep st0 h = st0 from by simp [backfillStep, hm]]
        exact ih st0 hkt hk
      · have hstep : backfillStep st0 h = dset st0 h (Cell.text "") := by
          simp [backfillStep, hm]
        rw [hstep]
        have hk2 : dmem (dset st0 h (Cell.text "")) k = false := by
          rw [dmem_dset, hk]
          simpa using hkh
        exact ih _ hkt hk2

theorem bfFold_keys (l : List String) (st0 : Dict Cell) (k : String)
    (h : dmem (l.foldl backfillStep st0) k = true) :
    dmem st0 k = true ∨ k ∈ l := by
  induction l generalizing st0 with
  | nil => exact Or.inl h
  | cons hd t ih =>
    rw [List.foldl_cons] at h
    rcases ih _ h with h1 | h1
    · unfold backfillStep at h1
      by_cases hm : dmem st0 hd
      · rw [if_pos hm] at h1
        exact Or.inl h1
      · rw [if_neg hm, dmem_dset] at h1
        rcases Bool.or_eq_true_iff.mp h1 with h2 | h2
        · exact Or.inl h2
        · right
          have : k = hd := by simpa using h2
          simp [this]
    · right
      simp [h1]

theorem bfFold_mem (l : List String) (st0 : Dict Cell) (k : String)
    (hkl : k ∈ l) : dmem (l.foldl backfillStep st0) k = true := by
  by_cases hk : dmem st0 k
  · rw [← dget_isSome_iff_dmem, bfFold_stable l st0 k hk, dget_isSome_iff_dmem]
    exact hk
  · rw [← dget_isSome_iff_dmem, bfFold_fills l st0 k hkl (by simpa using hk)]
    rfl

/-! ### Debit/credit-logic lemmas -/

theorem dget_same_or_text (d : Dict Cell) (k : String) :
    dget d k = dget d k ∨ ∃ t, dget d k = some (Cell.text t) := Or.inl rfl

theorem dget_after_dset_text (d0 d : Dict Cell) (k' s : String) (k : String)
    (h : dget d k = dget d0 k ∨ ∃ t, dget d k = some (Cell.text t)) :
    dget (dset d k' (Cell.text s)) k = dget d0 k
    ∨ ∃ t, dget (dset d k' (Cell.text s)) k = some (Cell.text t) := by
  by_cases hk : k = k'
  · subst hk
    exact Or.inr ⟨s, dget_dset_self ..⟩
  · rw [dget_dset_ne _ _ _ _ hk]
    exact h

/-- The debit/credit logic either leaves a key's value unchanged or
assigns it a string. -/
theorem handle_text_or_same (st tx : Dict Cell) (k : String) :
    dget (handle_debit_credit st tx) k = dget st k
    ∨ ∃ t, dget (handle_debit_credit st tx) k = some (Cell.text t) := by
  simp only [handle_debit_credit]
  split_ifs <;>
    solve_by_elim [dget_after_dset_text, dget_same_or_text]

/-- The debit/credit logic touches only the Debit and Credit keys. -/
theorem handle_untouched (st tx : Dict Cell) (k : String)
    (hD : k ≠ "Debit") (hC : k ≠ "Credit") :
    dget (handle_debit_credit st tx) k = dget st k := by
  have rwD : ∀ (d : Dict Cell) (v : Cell), dget (dset d "Debit" v) k = dget d k :=
    fun d v => dget_dset_ne d "Debit" k v hD
  have rwC : ∀ (d : Dict Cell) (v : Cell), dget (dset d "Credit" v) k = dget d k :=
    fun d v => dget_dset_ne d "Credit" k v hC
  simp only [handle_debit_credit]
  split_ifs <;> simp only [rwD, rwC]

/-- C3 (amended).  A standardized transaction has exactly the seven
canonical fields as keys; the date and amount fields (`Tran Date`,
`Value Date`, `Debit`, `Credit`, `Balance`) are always string cells; a
canonical field fed by no mapping output (other than the Debit/Credit
fallback targets) is the empty string; but values mapped to the remaining
fields (`Ref. No`, `Transaction Details`) keep the raw cell value without
text coercion. -/
theorem standardized_transaction_fields (dtParse : String → Option Int)
    (fi : FormatInfo) (opts : Options) (tx : Dict Cell)
    (hmap : ∀ p ∈ fi.mapping, p.2 ∈ standard_headers) :
    (∀ k, dmem (standardizeOne dtParse fi opts tx) k = true ↔ k ∈ standard_headers)
    ∧ (∀ k ∈ dateAmountTargets,
        isTextOpt (dget (standardizeOne dtParse fi opts tx) k) = true)
    ∧ (∀ k ∈ standard_headers, k ∉ fi.mapping.map Prod.snd →
        k ≠ "Debit" → k ≠ "Credit" →
        dget (standardizeOne dtParse fi opts tx) k = some (Cell.text "")) := by
  have hDA_sub : ∀ k ∈ dateAmountTargets, k ∈ standard_headers := by decide
  set df := opts.date_format.getD "DD/MM/YYYY" with hdf
  set st1 := fi.mapping.foldl (applyMapStep dtParse df tx) [] with hst1
  set st2 := standard_headers.foldl backfillStep st1 with hst2
  have hone : standardizeOne dtParse fi opts tx = handle_debit_credit st2 tx := rfl
  have hkeys1 : ∀ k, dmem st1 k = true → k ∈ standard_headers := by
    intro k h
    rcases mapFold_keys dtParse df tx fi.mapping [] k (hst1 ▸ h) with h1 | h1
    · simp [dmem] at h1
    · obtain ⟨p, hp, he⟩ := List.mem_map.mp h1
      exact he ▸ hmap p hp
  have hmem2 : ∀ k ∈ standard_headers, dmem st2 k = true := by
    intro k hk
    exact bfFold_mem standard_headers st1 k hk
  have hkeys2 : ∀ k, dmem st2 k = true → k ∈ standard_headers := by
    intro k h
    rcases bfFold_keys standard_headers st1 k (hst2 ▸ h) with h1 | h1
    · exact hkeys1 k h1
    · exact h1
  refine ⟨?_, ?_, ?_⟩
  · intro k
    constructor
    · intro h
      rw [hone] at h
      by_cases hkD : k = "Debit"
      · subst hkD
        decide
      · by_cases hkC : k = "Credit"
        · subst hkC
          decide
        · rw [← dget_isSome_iff_dmem, handle_untouched st2 tx k hkD hkC,
            dget_isSome_iff_dmem] at h
          exact hkeys2 k h
    · intro hk
      rw [hone]
      have h2 := hmem2 k hk
      rcases handle_text_or_same st2 tx k with he | ⟨t, he⟩
      · rw [← dget_isSome_iff_dmem, he, dget_isSome_iff_dmem]
        exact h2
      · rw [← dget_isSome_iff_dmem, he]
        rfl
  · intro k hk
    rw [hone]
    have htext2 : isTextOpt (dget st2 k) = true := by
      by_cases hm1 : dmem st1 k
      · rw [hst2, bfFold_stable _ _ _ hm1]
        exact mapFold_textinv dtParse df tx fi.mapping [] k hk
          (by intro h; simp [dmem] at h) (hst1 ▸ hm1)
      · rw [hst2, bfFold_fills _ _ _ (hDA_sub k hk) (by simpa using hm1)]
        rfl
    rcases handle_text_or_same st2 tx k with he | ⟨t, he⟩
    · rw [he]
      exact htext2
    · rw [he]
      rfl
  · intro k hk hnt hkD hkC
    rw [hone, handle_untouched st2 tx k hkD hkC]
    have hm1 : dmem st1 k = false := by
      by_contra hcon
      have hc : dmem st1 k = true := by simpa using hcon
      rcases mapFold_keys dtParse df tx fi.mapping [] k (hst1 ▸ hc) with h1 | h1
      · simp [dmem] at h1
      · exact hnt h1
    rw [hst2]
    exact bfFold_fills standard_headers st1 k hk hm1

/-- A raw FCMB-style transaction whose instrument code is numeric. -/
def txInstr : Dict Cell :=
  [("Transaction Date", .text "01/01/2024"), ("Instrument Code", .intv 12345)]

/-- Counterexample to C3 as stated: the numeric instrument code mapped to
`Ref. No` stays a number — values of non-date, non-amount canonical fields
are not coerced to text. -/
theorem standardized_value_not_text_counterexample :
    dget (standardizeOne nullParse (bindProfile fcmbFormat) {} txInstr) "Ref. No"
        = some (Cell.intv 12345)
    ∧ allValuesText (standardizeOne nullParse (bindProfile fcmbFormat) {} txInstr)
        = false := by
  constructor
  · decide
  · decide

/-- Witness for the amended C3 on the concrete FCMB profile and raw
transaction. -/
theorem standardized_transaction_fields_witness :
    dmem (standardizeOne nullParse (bindProfile fcmbFormat) {} txInstr) "Balance"
      = true :=
  ((standardized_transaction_fields nullParse (bindProfile fcmbFormat) {} txInstr
    (by decide)).1 "Balance").mpr (by decide)

end FinanceBot